import Mathlib

/-!
# Verification of the 3dObjLib polygon-clipping core

A shallow embedding of the parts of 3dObjLib (Coord.h, Vector.c, Vertex.c,
Primitive.c) needed to settle the frozen claims about the library, together
with the theorems settling them.

Modelling conventions:
* `Coord` (a C `double`, described by the specification as "a real scalar")
  is modelled as `ℚ`, which makes every geometric computation exact and
  decidable.  `MAX_FLT_ERR` is the library's tolerance 1e-3.
* C arrays `Coord[3]` become `Fin 3 → ℚ`; the growable vertex and side
  arrays become lists.  Allocation never fails in the model (allocation
  failure is an error path orthogonal to the claims settled here).
* Fallible lookups (`vertex_array_get_vertex`, etc.) return `Option`.
* Each definition mirrors the structure of the C function of the same name.
-/

namespace ObjLib

/-! ## Coord.h -/

abbrev Coord := ℚ

/-- `MAX_FLT_ERR` from Coord.h: the tolerance used by all inexact
comparisons. -/
def MAX_FLT_ERR : Coord := 1/1000

/-- `coord_abs` from Coord.h. -/
def coord_abs (a : Coord) : Coord := |a|

/-- `coord_equal` from Coord.h: `|a - b| < MAX_FLT_ERR`. -/
def coord_equal (a b : Coord) : Bool := coord_abs (a - b) < MAX_FLT_ERR

/-- `coord_less_than` from Coord.h: `(b - a) >= MAX_FLT_ERR`. -/
def coord_less_than (a b : Coord) : Bool := MAX_FLT_ERR ≤ b - a

/-- `LOWEST` macro from Internal/3dObjMisc.h: `(a) < (b) ? (a) : (b)`. -/
def LOWEST (a b : Coord) : Coord := if a < b then a else b

/-- `HIGHEST` macro from Internal/3dObjMisc.h: `(a) > (b) ? (a) : (b)`. -/
def HIGHEST (a b : Coord) : Coord := if a > b then a else b

/-! ## Vector.h / Vector.c -/

/-- A 3-component coordinate vector (`Coord[3]` in C). -/
abbrev Vec3 := Fin 3 → Coord

/-- `Plane` from Vector.h: which spatial dimensions act as the 2D working
axes x and y, and which is projected out (z). -/
structure Plane where
  x : Fin 3
  y : Fin 3
  z : Fin 3
deriving DecidableEq, Repr

/-- `vector_x` from Vector.c: `(*a)[p.x]`. -/
def vector_x (a : Vec3) (p : Plane) : Coord := a p.x

/-- `vector_y` from Vector.c: `(*a)[p.y]`. -/
def vector_y (a : Vec3) (p : Plane) : Coord := a p.y

/-- `vector_z` from Vector.c: `(*a)[p.z]`. -/
def vector_z (a : Vec3) (p : Plane) : Coord := a p.z

/-- `vector_sub` from Vector.c. -/
def vector_sub (min sub : Vec3) : Vec3 := fun n => min n - sub n

/-- `vector_equal` from Vector.c: componentwise `coord_equal` of the three
components. -/
def vector_equal (a b : Vec3) : Bool :=
  coord_equal (a 0) (b 0) && coord_equal (a 1) (b 1) && coord_equal (a 2) (b 2)

/-- `vector_xy_less_than` from Vector.c. -/
def vector_xy_less_than (a b : Vec3) (p : Plane) : Bool :=
  coord_less_than (vector_x a p) (vector_x b p) &&
  coord_less_than (vector_y a p) (vector_y b p)

/-- `vector_xy_greater_or_equal` from Vector.c. -/
def vector_xy_greater_or_equal (a b : Vec3) (p : Plane) : Bool :=
  !coord_less_than (vector_x a p) (vector_x b p) &&
  !coord_less_than (vector_y a p) (vector_y b p)

/-- `vector_y_gradient` from Vector.c: `(by - ay) / (bx - ax)` in the given
plane.  The C code asserts the denominator is nonzero; in `ℚ` division by
zero yields 0, and every call site guards the denominator by an ε-test. -/
def vector_y_gradient (a b : Vec3) (p : Plane) : Coord :=
  (vector_y b p - vector_y a p) / (vector_x b p - vector_x a p)

/-- `vector_y_intercept` from Vector.c: `c = y - m*x` at point `a`. -/
def vector_y_intercept (a : Vec3) (m : Coord) (p : Plane) : Coord :=
  vector_y a p - m * vector_x a p

/-- The construction of the output vector of `vector_intersect`:
`*vector_x(intersect, p) = ix; *vector_y(intersect, p) = iy;
*vector_z(intersect, p) = iz` in that write order, starting from an
uninitialized (here: zero) stack array. -/
def mk_intersect (p : Plane) (ix iy iz : Coord) : Vec3 :=
  Function.update (Function.update (Function.update (fun _ => 0) p.x ix) p.y iy) p.z iz

/-- The z-coordinate computation at the end of `vector_intersect`
(Vector.c lines 359-379): the line equation of AB (or of CD when AB is
vertical in the projected plane) in the xz plane `p2 = {p.x, p.z, p.y}`. -/
def vector_intersect_z (va vb vc vd : Vec3) (p : Plane) (ix : Coord) : Coord :=
  let p2 : Plane := ⟨p.x, p.z, p.y⟩
  if coord_equal (vector_x va p) (vector_x vb p) then
    let m3 := vector_y_gradient vc vd p2
    let c3 := vector_y_intercept vc m3 p2
    m3 * ix + c3
  else
    let m4 := vector_y_gradient va vb p2
    let c4 := vector_y_intercept va m4 p2
    m4 * ix + c4

/-- `vector_intersect` from Vector.c: intersection of the infinite lines AB
and CD in the projected plane, `none` where the C function returns false. -/
def vector_intersect (va vb vc vd : Vec3) (p : Plane) : Option Vec3 :=
  let ax := vector_x va p; let ay := vector_y va p
  let bx := vector_x vb p; let yb := vector_y vb p
  let cx := vector_x vc p; let cy := vector_y vc p
  let dx := vector_x vd p; let dy := vector_y vd p
  if coord_equal ax bx then
    -- line AB is vertical
    let ix := ax
    if coord_equal cx dx then
      -- both lines are vertical so they are parallel
      none
    else
      let m2 := vector_y_gradient vc vd p
      let c2 := vector_y_intercept vc m2 p
      let iy := m2 * ix + c2
      some (mk_intersect p ix iy (vector_intersect_z va vb vc vd p ix))
  else
    if coord_equal ay yb then
      -- line AB is horizontal
      let iy := ay
      if coord_equal cx dx then
        let ix := cx
        some (mk_intersect p ix iy (vector_intersect_z va vb vc vd p ix))
      else
        if coord_equal cy dy then
          -- both lines are horizontal so they are parallel
          none
        else
          let m2 := vector_y_gradient vc vd p
          let c2 := vector_y_intercept vc m2 p
          let ix := (iy - c2) / m2
          some (mk_intersect p ix iy (vector_intersect_z va vb vc vd p ix))
    else
      -- AB is neither vertical nor horizontal
      let m1 := vector_y_gradient va vb p
      let c1 := vector_y_intercept va m1 p
      if coord_equal cx dx then
        let ix := cx
        let iy := m1 * ix + c1
        some (mk_intersect p ix iy (vector_intersect_z va vb vc vd p ix))
      else
        let m2 := vector_y_gradient vc vd p
        if coord_equal m1 m2 then
          -- lines CD and AB are parallel
          none
        else
          let c2 := vector_y_intercept vc m2 p
          let ix := (c2 - c1) / (m1 - m2)
          let iy := m1 * ix + c1
          some (mk_intersect p ix iy (vector_intersect_z va vb vc vd p ix))

/-- `vector_find_plane` from Vector.c.  The C loop starts with
`biggest = -COORD_INF`, so the first iteration always updates `bd`; the
loop over the three dimensions is unrolled here with that first update
performed. -/
def vector_find_plane (v : Vec3) : Plane :=
  let bd : Fin 3 :=
    if coord_abs (v 1) > coord_abs (v 0) then
      (if coord_abs (v 2) > coord_abs (v 1) then 2 else 1)
    else
      (if coord_abs (v 2) > coord_abs (v 0) then 2 else 0)
  { x := if bd = 0 then 2 else 0
    y := if bd = 1 then 2 else 1
    z := bd }

/-! ## Vertex.h / Vertex.c -/

/-- `Vertex` from Vertex.h. -/
structure Vertex where
  coords : Vec3
  id : Int
  dup : Int
  marked : Bool
deriving DecidableEq

/-- `VertexArray` from Vertex.h.  The capacity bookkeeping (`nalloc`,
`nsorted`) and the scratch pointer buffer are allocation details with no
observable effect on the claims and are omitted; `nvertices` is the list
length. -/
structure VertexArray where
  vertices : List Vertex

/-- Update the vertex at list position `i` (pointer write through
`vertex_array_get_vertex` in C); out of range leaves the list unchanged. -/
def updVertex : List Vertex → Nat → (Vertex → Vertex) → List Vertex
  | [], _, _ => []
  | x :: t, 0, f => f x :: t
  | x :: t, n+1, f => x :: updVertex t n f

/-- `vertex_array_get_vertex` from Vertex.c: `NULL` (here `none`) unless
`0 <= n < nvertices`. -/
def vertex_array_get_vertex (va : VertexArray) (n : Int) : Option Vertex :=
  if 0 ≤ n ∧ n < (va.vertices.length : Int) then va.vertices.get? n.toNat
  else none

/-- `vertex_array_get_num_vertices` from Vertex.c. -/
def vertex_array_get_num_vertices (va : VertexArray) : Int :=
  (va.vertices.length : Int)

/-- `vertex_array_get_coords` from Vertex.c. -/
def vertex_array_get_coords (va : VertexArray) (n : Int) : Option Vec3 :=
  (vertex_array_get_vertex va n).map Vertex.coords

/-- `vertex_array_set_used` from Vertex.c: if vertex `n` exists, set its
`marked` flag (the C writes through the pointer returned by
`vertex_array_get_vertex`). -/
def vertex_array_set_used (va : VertexArray) (n : Int) : VertexArray :=
  match vertex_array_get_vertex va n with
  | some _ => ⟨updVertex va.vertices n.toNat (fun x => { x with marked := true })⟩
  | none => va

/-- `vertex_array_is_used` from Vertex.c. -/
def vertex_array_is_used (va : VertexArray) (n : Int) : Bool :=
  match vertex_array_get_vertex va n with
  | some vx => vx.marked
  | none => false

/-- The `while` loop of `vertex_array_get_id` (Vertex.c lines 134-138),
with explicit fuel.  The C loop follows `dup` links until reaching a vertex
with `dup < 0` (or an invalid index); it terminates on every state the
library constructs because `dup` chains are at most one hop, so any fuel
of at least the pool size is enough. -/
def get_id_fuel (va : VertexArray) : Nat → Int → Int
  | 0, _ => -1
  | fuel+1, n =>
    match vertex_array_get_vertex va n with
    | none => -1
    | some vx => if 0 ≤ vx.dup then get_id_fuel va fuel vx.dup else vx.id

/-- `vertex_array_get_id` from Vertex.c: follow the dup chain and return
the id of the vertex reached (or -1 for an invalid index). -/
def vertex_array_get_id (va : VertexArray) (n : Int) : Int :=
  get_id_fuel va (va.vertices.length + 1) n

/-- `vertex_array_add_vertex` from Vertex.c: append a vertex with
`marked = false`, `id` = its index and `dup = -1`, returning its index.
(Allocation growth cannot fail in the model.) -/
def vertex_array_add_vertex (va : VertexArray) (coords : Vec3) : VertexArray × Int :=
  (⟨va.vertices ++ [{ coords := coords, id := (va.vertices.length : Int),
                      dup := -1, marked := false }]⟩,
   (va.vertices.length : Int))

/-- The scan loop of `vertex_array_find_vertex`: first index whose coords
are `vector_equal` to the target, else -1. -/
def find_vertex_go (coords : Vec3) : List Vertex → Nat → Int
  | [], _ => -1
  | vx :: t, i => if vector_equal vx.coords coords then (i : Int)
                  else find_vertex_go coords t (i+1)

/-- `vertex_array_find_vertex` from Vertex.c. -/
def vertex_array_find_vertex (va : VertexArray) (coords : Vec3) : Int :=
  find_vertex_go coords va.vertices 0

/-- The body of the duplicate-linking step of `vertex_array_find_duplicates`
(Vertex.c lines 297-320): link vertex `w` to vertex `last`
(`sorted[v]->dup = sorted[last] - varray->vertices`) and transfer the
`marked` flag from the duplicate to the original. -/
def linkStep (vs : List Vertex) (last w : Nat) : List Vertex :=
  let wasMarked := ((vs.get? w).map Vertex.marked).getD false
  let vs1 := updVertex vs w (fun x => { x with dup := (last : Int) })
  if wasMarked then
    updVertex (updVertex vs1 last (fun x => { x with marked := true })) w
      (fun x => { x with marked := false })
  else vs1

/-- The pairwise scan of `vertex_array_find_duplicates` (Vertex.c lines
294-324) over a sorted sequence of vertex indices: `last` is the head of
the current run of `vector_equal` vertices; each equal successor is linked
to it.  Also counts the duplicates found (the function's return value). -/
def findDupsGo : List Vertex → Nat → List Nat → Nat → List Vertex × Nat
  | vs, _, [], n => (vs, n)
  | vs, last, w :: rest, n =>
    match (vs.get? last).map Vertex.coords, (vs.get? w).map Vertex.coords with
    | some a, some b =>
      if vector_equal a b then findDupsGo (linkStep vs last w) last rest (n+1)
      else findDupsGo vs w rest n
    | _, _ => (vs, n)

/-- `vertex_array_find_duplicates` from Vertex.c.  The C function sorts an
array of pointers to all `nvertices` vertices with `qsort` (an unspecified
comparison sort), then runs the linking scan on the sorted sequence; here
the sorted sequence of vertex indices is a parameter, and the theorems
quantify over every permutation of `0..nvertices-1`, which covers every
possible `qsort` result.  (The scratch-buffer allocation failure path
returns -1 in C and is not modelled.) -/
def vertex_array_find_duplicates (va : VertexArray) (sorted : List Nat) :
    VertexArray × Nat :=
  match sorted with
  | [] => (va, 0)
  | h :: t =>
    let r := findDupsGo va.vertices h t 0
    (⟨r.1⟩, r.2)

/-- The loop of `vertex_array_renumber` (Vertex.c lines 366-384): walk the
vertices in insertion order (`v` is the current index), assigning each
marked vertex the next sequential id.  The C writes the id only when
`next_id != v`. -/
def renumber_go : List Vertex → Nat → Nat → List Vertex × Nat
  | [], next, _ => ([], next)
  | vx :: rest, next, v =>
    if vx.marked then
      let vx' := if next ≠ v then { vx with id := (next : Int) } else vx
      let r := renumber_go rest (next+1) (v+1)
      (vx' :: r.1, r.2)
    else
      let r := renumber_go rest next (v+1)
      (vx :: r.1, r.2)

/-- `vertex_array_renumber` from Vertex.c: returns the updated pool and the
number of surviving (marked) vertices. -/
def vertex_array_renumber (va : VertexArray) : VertexArray × Nat :=
  let r := renumber_go va.vertices 0 0
  (⟨r.1⟩, r.2)

/-- `vertex_array_edge_intersects_line` from Vertex.c: edge AB (inclusive
start, exclusive end) against the infinite line CD; `some` is the C `true`
with the intersection point.  The C asserts the four coordinate fetches
succeed (through `vector_intersect`'s non-NULL asserts); an invalid index
yields `none` here. -/
def vertex_array_edge_intersects_line (va : VertexArray) (a b c d : Int)
    (p : Plane) : Option Vec3 :=
  match vertex_array_get_coords va a, vertex_array_get_coords va b,
        vertex_array_get_coords va c, vertex_array_get_coords va d with
  | some cva, some cvb, some cvc, some cvd =>
    match vector_intersect cva cvb cvc cvd p with
    | none => none
    | some ipt =>
      let ix := vector_x ipt p
      let ax := vector_x cva p
      let bx := vector_x cvb p
      if coord_less_than ix (LOWEST ax bx) then none
      else if coord_less_than (HIGHEST ax bx) ix then none
      else
        let iy := vector_y ipt p
        let ay := vector_y cva p
        let yb := vector_y cvb p
        if coord_less_than iy (LOWEST ay yb) then none
        else if coord_less_than (HIGHEST ay yb) iy then none
        else if vector_equal ipt cvb then none
        else some ipt
  | _, _, _, _ => none

/-! ## Primitive.h / Primitive.c

The library is built with `BBOX = 1` (Primitive.h), so the bounding-box
cache fields and the bbox-dependent code paths are part of the model. -/

/-- `MAX_SIDES`: the capacity of `Primitive.sides` (`int sides[15]`). -/
def MAX_SIDES : Nat := 15

/-- `Primitive` from Primitive.h.  `sides`/`nsides` become a list (its
length is `nsides`). -/
structure Primitive where
  colour : Int
  id : Int
  sides : List Int
  normal : Vec3
  has_normal : Bool
  has_bbox : Bool
  low : Vec3
  high : Vec3
deriving DecidableEq

/-- `primitive_init` from Primitive.c.  The C compound literal leaves
`sides`, `normal`, `low` and `high` storage uninitialized behind the
`nsides = 0` / cleared validity flags; the model zeroes them. -/
def primitive_init : Primitive :=
  { colour := 0, id := 0, sides := [], normal := fun _ => 0,
    has_normal := false, has_bbox := false,
    low := fun _ => 0, high := fun _ => 0 }

/-- Access `sides[n]` by natural-number index (in-range positions of the
C array), with the C out-of-range result -1 as default. -/
def getSideN (p : Primitive) (n : Nat) : Int := p.sides.getD n (-1)

/-- `primitive_get_side` from Primitive.c: -1 unless `0 <= n < nsides`. -/
def primitive_get_side (p : Primitive) (n : Int) : Int :=
  if 0 ≤ n ∧ n < (p.sides.length : Int) then getSideN p n.toNat else -1

/-- `primitive_get_num_sides` from Primitive.c. -/
def primitive_get_num_sides (p : Primitive) : Int := (p.sides.length : Int)

/-- `primitive_add_side` from Primitive.c: append vertex index `v`
(returning the new side's index) and invalidate both caches; reject a
negative `v` or a full sides array with result -1 and no change. -/
def primitive_add_side (p : Primitive) (v : Int) : Primitive × Int :=
  if 0 ≤ v then
    if p.sides.length + 1 ≤ MAX_SIDES then
      ({ p with sides := p.sides ++ [v], has_normal := false, has_bbox := false },
       (p.sides.length : Int))
    else (p, -1)
  else (p, -1)

/-- `primitive_delete_all` from Primitive.c. -/
def primitive_delete_all (p : Primitive) : Primitive :=
  { p with sides := [], has_normal := false, has_bbox := false }

/-- `primitive_reverse_sides` from Primitive.c: the C reverses the sides
array in place by swapping ends towards the middle, which is exactly list
reversal; it then clears `has_normal` (and only `has_normal`). -/
def primitive_reverse_sides (p : Primitive) : Primitive :=
  { p with sides := p.sides.reverse, has_normal := false }

/-- `primitive_set_colour` from Primitive.c. -/
def primitive_set_colour (p : Primitive) (colour : Int) : Primitive :=
  { p with colour := colour }

/-- `primitive_get_colour` from Primitive.c. -/
def primitive_get_colour (p : Primitive) : Int := p.colour

/-- `primitive_get_id` from Primitive.c. -/
def primitive_get_id (p : Primitive) : Int := p.id

/-- `primitive_set_id` from Primitive.c: negative ids are rejected
without change. -/
def primitive_set_id (p : Primitive) (id : Int) : Primitive :=
  if 0 ≤ id then { p with id := id } else p

/-- The min/max fold of `primitive_make_bbox` (Primitive.c lines 306-321)
over the remaining sides, starting from the first vertex's coords.  The C
compares exactly (`>` / `<` on `Coord`). -/
def bbox_go (va : VertexArray) : List Int → Vec3 → Vec3 → Option (Vec3 × Vec3)
  | [], lo, hi => some (lo, hi)
  | s :: t, lo, hi =>
    match vertex_array_get_coords va s with
    | none => none
    | some c =>
      bbox_go va t (fun dim => if c dim < lo dim then c dim else lo dim)
        (fun dim => if c dim > hi dim then c dim else hi dim)

/-- `primitive_make_bbox` from Primitive.c: `none` when `nsides < 1` or a
vertex fetch fails, otherwise the componentwise min/max of all side
vertices' coords. -/
def primitive_make_bbox (p : Primitive) (va : VertexArray) : Option (Vec3 × Vec3) :=
  match p.sides with
  | [] => none
  | s0 :: rest =>
    match vertex_array_get_coords va s0 with
    | none => none
    | some c0 => bbox_go va rest c0 c0

/-- `primitive_ensure_bbox` from Primitive.c: fill the cache if absent;
the returned flag is the C return value (`primitive->has_bbox`). -/
def primitive_ensure_bbox (p : Primitive) (va : VertexArray) : Primitive × Bool :=
  if p.has_bbox then (p, true)
  else
    match primitive_make_bbox p va with
    | some lohi => ({ p with low := lohi.1, high := lohi.2, has_bbox := true }, true)
    | none => (p, false)

/-- `primitive_get_top_y` from Primitive.c with `BBOX = 1`: the cached
`high[plane.y]` (the C asserts `has_bbox`). -/
def primitive_get_top_y (p : Primitive) (plane : Plane) : Coord :=
  p.high plane.y

/-- The edge loop of `primitive_contains_point` (Primitive.c lines
547-660): cast a ray towards +x from the point and count crossings.  The
loop walks the sides list; `end_x`/`end_y` are the previous vertex's
projected coords (initially the last vertex's), `is_inside` the crossing
parity.  Early `true` exits are coincidence with an edge; `false` exits
are failed vertex fetches. -/
def cp_loop (va : VertexArray) (v : Int) (pl : Plane) (px py top_y : Coord) :
    List Int → Coord → Coord → Bool → Bool
  | [], _, _, is_inside => is_inside
  | v2 :: rest, end_x, end_y, is_inside =>
    if v2 = v then true
    else
      match vertex_array_get_coords va v2 with
      | none => false
      | some start =>
        let start_x := vector_x start pl
        let start_y := vector_y start pl
        if coord_less_than (HIGHEST start_x end_x) px then
          -- edge entirely left of the ray
          cp_loop va v pl px py top_y rest start_x start_y is_inside
        else if coord_equal end_y start_y then
          -- horizontal edge
          if coord_less_than px (LOWEST start_x end_x) then
            cp_loop va v pl px py top_y rest start_x start_y is_inside
          else if coord_equal py end_y || coord_equal py start_y then true
          else cp_loop va v pl px py top_y rest start_x start_y is_inside
        else if py < LOWEST start_y end_y then
          cp_loop va v pl px py top_y rest start_x start_y is_inside
        else if HIGHEST start_y end_y < py then
          cp_loop va v pl px py top_y rest start_x start_y is_inside
        else if py = HIGHEST start_y end_y ∧ HIGHEST start_y end_y ≠ top_y then
          cp_loop va v pl px py top_y rest start_x start_y is_inside
        else
          let intersect_x :=
            if coord_equal end_x start_x then start_x
            else start_x + (py - start_y) / ((end_y - start_y) / (end_x - start_x))
          if coord_equal px intersect_x then true
          else if coord_less_than px intersect_x then
            cp_loop va v pl px py top_y rest start_x start_y (!is_inside)
          else cp_loop va v pl px py top_y rest start_x start_y is_inside

/-- `primitive_contains_point` from Primitive.c (with `BBOX = 1`):
ray-casting point-in-polygon test for pool vertex `v` against the polygon,
in the projected plane. -/
def primitive_contains_point (p : Primitive) (va : VertexArray) (v : Int)
    (pl : Plane) : Bool :=
  if (p.sides.length : Int) < 3 then false
  else
    let last_side := primitive_get_side p ((p.sides.length : Int) - 1)
    if last_side = v then true
    else
      match vertex_array_get_coords va last_side with
      | none => false
      | some endv =>
        match vertex_array_get_coords va v with
        | none => false
        | some point =>
          let px := vector_x point pl
          let py := vector_y point pl
          if !vector_xy_greater_or_equal point p.low pl ||
             !vector_xy_greater_or_equal p.high point pl then false
          else
            let top_y := primitive_get_top_y p pl
            cp_loop va v pl px py top_y p.sides (vector_x endv pl)
              (vector_y endv pl) false

/-- The search loop of `primitive_equal` (Primitive.c lines 717-724):
first position of `tgt` in the list, if any. -/
def findIdxAux : List Int → Int → Nat → Option Nat
  | [], _, _ => none
  | x :: t, tgt, k => if x = tgt then some k else findIdxAux t tgt (k+1)

/-- First index of `tgt` in `l` (`none` if absent). -/
def findFirstIdx (l : List Int) (tgt : Int) : Option Nat := findIdxAux l tgt 0

/-- `primitive_equal` from Primitive.c: the primitives are equal when they
have the same number of sides and the side list of `p` occurs in `q` as
the cyclic sequence starting at the first occurrence of `p`'s first vertex
index in `q`.  The C walks `s = j+1, j+2, ...` resetting `s` to 0 whenever
it reaches `nsides_q`, which is index `(j + t) % nsides_q` for the `t`-th
comparison. -/
def primitive_equal (q p : Primitive) : Bool :=
  if p.sides.length ≠ q.sides.length then false
  else if p.sides.length = 0 then true
  else
    match findFirstIdx q.sides (getSideN p 0) with
    | none => false
    | some j =>
      decide (∀ t, t < p.sides.length → 1 ≤ t →
        getSideN p t = getSideN q ((j + t) % q.sides.length))

/-- The state machine of `primitive_split` (Primitive.c lines 827-831). -/
inductive SplitState where
  | splitNone
  | splitInProgress
  | splitComplete
deriving DecidableEq, Repr

/-- Result of `primitive_split`: the modified input primitive, the vertex
pool (which may have gained intersection vertices), the `out` primitive
and the `*split` flag.  `none` models the C `return false` paths
(side-count overflow; allocation failure cannot occur in the model). -/
structure SplitResult where
  primitive : Primitive
  varray : VertexArray
  out : Primitive
  split : Bool

/-- The edge loop of `primitive_split` (Primitive.c lines 840-904):
for each directed edge `last -> side`, if the edge crosses the infinite
line through pool vertices `a` and `b` (and the split is not complete),
find or create the intersection vertex and advance the state machine;
each `side` is then appended to `out` while a split is in progress and to
the retained polygon `tmp` otherwise. -/
def split_loop (a b : Int) (pl : Plane) :
    List Int → VertexArray → Primitive → Primitive → SplitState → Int →
    Option (VertexArray × Primitive × Primitive × SplitState)
  | [], va, tmp, out, st, _ => some (va, tmp, out, st)
  | side :: rest, va, tmp, out, st, last =>
    match (if st = SplitState.splitComplete then none
           else vertex_array_edge_intersects_line va last side a b pl) with
    | some ipt =>
      let f := vertex_array_find_vertex va ipt
      let va1 := if f < 0 then (vertex_array_add_vertex va ipt).1 else va
      let v := if f < 0 then (vertex_array_add_vertex va ipt).2 else f
      if st = SplitState.splitInProgress then
        -- finishing the clip
        let r1 := if v ≠ last then primitive_add_side out v else (out, 0)
        if r1.2 < 0 then none
        else
          let r2 := if v ≠ side then primitive_add_side tmp v else (tmp, 0)
          if r2.2 < 0 then none
          else
            -- state is now SPLIT_COMPLETE: `side` goes to the retained polygon
            let r3 := primitive_add_side r2.1 side
            if r3.2 < 0 then none
            else split_loop a b pl rest va1 r3.1 r1.1 SplitState.splitComplete side
      else
        -- starting the clip
        let r1 := if v ≠ last then primitive_add_side tmp v else (tmp, 0)
        if r1.2 < 0 then none
        else
          let out0 := primitive_init
          let r2 := if v ≠ side then primitive_add_side out0 v else (out0, 0)
          if r2.2 < 0 then none
          else
            -- state is now SPLIT_IN_PROGRESS: `side` goes to the new polygon
            let r3 := primitive_add_side r2.1 side
            if r3.2 < 0 then none
            else split_loop a b pl rest va1 r1.1 r3.1 SplitState.splitInProgress side
    | none =>
      let r := primitive_add_side
        (if st = SplitState.splitInProgress then out else tmp) side
      if r.2 < 0 then none
      else if st = SplitState.splitInProgress then
        split_loop a b pl rest va tmp r.1 st side
      else split_loop a b pl rest va r.1 out st side

/-- The copy loop of `primitive_split` (Primitive.c lines 922-927):
re-add the retained polygon's sides to the (emptied) input primitive. -/
def copy_sides_go (p : Primitive) : List Int → Option Primitive
  | [] => some p
  | s :: t =>
    let r := primitive_add_side p s
    if r.2 < 0 then none else copy_sides_go r.1 t

/-- `primitive_split` from Primitive.c: cut the polygon along the infinite
line through pool vertices `a` and `b`.  When no split completes the input
primitive is unchanged and `split = false` (the C leaves the caller's
`out` buffer as whatever the loop wrote to it).  When the split completes,
the retained buffer replaces the input primitive's sides and `out` gets
the input's colour and id; the C then tests `primitive->has_normal`
*after* `primitive_delete_all` has cleared it, so the cached normal is
never actually copied to `out`. -/
def primitive_split (p : Primitive) (a b : Int) (va : VertexArray)
    (pl : Plane) : Option SplitResult :=
  let tmp0 := primitive_init
  if (p.sides.length : Int) < 3 then
    some { primitive := p, varray := va, out := primitive_init, split := false }
  else
    let last := primitive_get_side p ((p.sides.length : Int) - 1)
    match split_loop a b pl p.sides va tmp0 primitive_init SplitState.splitNone last with
    | none => none
    | some (va1, tmp, out, st) =>
      if st = SplitState.splitComplete then
        -- (the C asserts here that both polygons have > 2 sides and are
        -- coplanar with the original)
        let p1 := primitive_delete_all p
        match copy_sides_go p1 tmp.sides with
        | none => none
        | some p2 =>
          let out1 := primitive_set_colour out (primitive_get_colour p2)
          let out2 := primitive_set_id out1 (primitive_get_id p2)
          let out3 := if p2.has_normal then
              { out2 with normal := p2.normal, has_normal := true }
            else out2
          some { primitive := p2, varray := va1, out := out3, split := true }
      else
        some { primitive := p, varray := va1, out := out, split := false }

/-- The exact condition under which `vector_intersect` returns none,
read off the source's branch structure: both lines ε-vertical; or AB not
ε-vertical but ε-horizontal while CD is not ε-vertical but ε-horizontal;
or AB neither ε-vertical nor ε-horizontal, CD not ε-vertical, and the two
gradients ε-equal. -/
def codeParallel (va vb vc vd : Vec3) (p : Plane) : Bool :=
  let ax := vector_x va p; let ay := vector_y va p
  let bx := vector_x vb p; let yb := vector_y vb p
  let cx := vector_x vc p; let cy := vector_y vc p
  let dx := vector_x vd p; let dy := vector_y vd p
  (coord_equal ax bx && coord_equal cx dx) ||
  (!coord_equal ax bx && coord_equal ay yb &&
   !coord_equal cx dx && coord_equal cy dy) ||
  (!coord_equal ax bx && !coord_equal ay yb && !coord_equal cx dx &&
   coord_equal (vector_y_gradient va vb p) (vector_y_gradient vc vd p))

/-- The parallel classification exactly as the claim words it: "both
vertical (epsilon-equal x endpoints), both horizontal (epsilon-equal y
endpoints), or both sloped with epsilon-equal gradients" (sloped = neither
ε-vertical nor ε-horizontal). -/
def specParallel (va vb vc vd : Vec3) (p : Plane) : Bool :=
  let ax := vector_x va p; let ay := vector_y va p
  let bx := vector_x vb p; let yb := vector_y vb p
  let cx := vector_x vc p; let cy := vector_y vc p
  let dx := vector_x vd p; let dy := vector_y vd p
  (coord_equal ax bx && coord_equal cx dx) ||
  (coord_equal ay yb && coord_equal cy dy) ||
  (!coord_equal ax bx && !coord_equal ay yb &&
   !coord_equal cx dx && !coord_equal cy dy &&
   coord_equal (vector_y_gradient va vb p) (vector_y_gradient vc vd p))

/-- The number of marked vertices in a list. -/
def countMarked (l : List Vertex) : Nat := l.countP (fun x => x.marked)

/-! ## Concrete instances used by the witnesses and counterexamples -/

/-- A fresh pool vertex as `vertex_array_add_vertex` creates it. -/
def plainVertex (c : Vec3) (i : Nat) : Vertex :=
  { coords := c, id := (i : Int), dup := -1, marked := false }

/-- The projection plane (x,y,z) = (0,1,2): geometry in the z = 0 plane. -/
def planeXY : Plane := ⟨0, 1, 2⟩

/-- C1 pool: triangle A(-50,1/2,0), B(0,0,0), C(0,10,0) (indices 0-2) and
the endpoints (±100, 1/2000, 0) of a splitting line slightly above the
corner B (indices 3-4). -/
def c1_pool : VertexArray :=
  ⟨[plainVertex ![(-50 : ℚ), 1/2, 0] 0,
    plainVertex ![(0 : ℚ), 0, 0] 1,
    plainVertex ![(0 : ℚ), 10, 0] 2,
    plainVertex ![(-100 : ℚ), 1/2000, 0] 3,
    plainVertex ![(100 : ℚ), 1/2000, 0] 4]⟩

/-- C1 polygon: the triangle A, B, C. -/
def c1_prim : Primitive := { primitive_init with sides := [0, 1, 2] }

/-- C3 counterexample pool: vertex 1 duplicates vertex 0 (as after
`find_duplicates`), both unmarked. -/
def c3_pool : VertexArray :=
  ⟨[{ coords := ![0, 0, 0], id := 0, dup := -1, marked := false },
    { coords := ![0, 0, 0], id := 1, dup := 0, marked := false }]⟩

/-- C3 witness pool: three fresh vertices. -/
def c3w_pool : VertexArray :=
  ⟨[plainVertex ![(0 : ℚ), 0, 0] 0, plainVertex ![(1 : ℚ), 0, 0] 1,
    plainVertex ![(2 : ℚ), 0, 0] 2]⟩

/-- C4 pool: a triangle's vertices. -/
def c4_pool : VertexArray :=
  ⟨[plainVertex ![(0 : ℚ), 0, 0] 0, plainVertex ![(1 : ℚ), 0, 0] 1,
    plainVertex ![(0 : ℚ), 1, 0] 2]⟩

/-- C4 counterexample: a triangle whose bounding-box cache has been
established by `primitive_ensure_bbox`. -/
def c4_prim : Primitive :=
  (primitive_ensure_bbox { primitive_init with sides := [0, 1, 2] } c4_pool).1

/-- C4 witness primitive. -/
def c4w_prim : Primitive :=
  { primitive_init with sides := [0, 1], has_normal := true, has_bbox := true }

/-- C5 witness pool: triangle (0,0,0), (4,0,0), (0,4,0) plus two spare
points. -/
def w5_pool : VertexArray :=
  ⟨[plainVertex ![(0 : ℚ), 0, 0] 0, plainVertex ![(4 : ℚ), 0, 0] 1,
    plainVertex ![(0 : ℚ), 4, 0] 2, plainVertex ![(1 : ℚ), 1, 0] 3]⟩

/-- C5 witness polygon with its bbox cache established. -/
def w5_prim : Primitive :=
  (primitive_ensure_bbox { primitive_init with sides := [0, 1, 2] } w5_pool).1

/-- C5 witness degenerate primitive (2 sides). -/
def w5_line : Primitive := { primitive_init with sides := [0, 1] }

/-- C6 counterexample primitives: `c6y` is a cyclic rotation of `c6x`, but
the repeated vertex index 0 makes `primitive_equal`'s first-occurrence
alignment succeed in one direction only. -/
def c6x : Primitive := { primitive_init with sides := [0, 1, 2, 0] }

/-- Second C6 counterexample primitive. -/
def c6y : Primitive := { primitive_init with sides := [2, 0, 0, 1] }

/-- C6 witness primitives: a triangle and a cyclic rotation of it. -/
def w6p : Primitive := { primitive_init with sides := [1, 2, 3] }

/-- Rotation of `w6p`. -/
def w6q : Primitive := { primitive_init with sides := [2, 3, 1] }

/-- C7 counterexample: AB from (0,0,0) to (20,1/100,0) is sloped under the
ε-classification (its endpoints differ by 20 in x and by 1/100 ≥ ε in y)
but its gradient 1/2000 is ε-equal to 0; CD from (0,5,0) to (1,5,0) is
exactly horizontal. -/
def c7A : Vec3 := ![(0 : ℚ), 0, 0]

/-- C7 counterexample point B. -/
def c7B : Vec3 := ![(20 : ℚ), 1/100, 0]

/-- C7 counterexample point C. -/
def c7C : Vec3 := ![(0 : ℚ), 5, 0]

/-- C7 counterexample point D. -/
def c7D : Vec3 := ![(1 : ℚ), 5, 0]

/-- C7 witness point A. -/
def w7A : Vec3 := ![(0 : ℚ), 0, 0]

/-- C7 witness point B. -/
def w7B : Vec3 := ![(1 : ℚ), 2, 0]

/-- C7 witness point C. -/
def w7C : Vec3 := ![(0 : ℚ), 5, 0]

/-- C7 witness point D. -/
def w7D : Vec3 := ![(1 : ℚ), 9, 0]

/-- C9 witness pool: vertex 2 has the same coords as vertex 0; 1, 2 and 3
are marked. -/
def w9_pool : VertexArray :=
  ⟨[{ coords := ![0, 0, 0], id := 0, dup := -1, marked := false },
    { coords := ![1, 0, 0], id := 1, dup := -1, marked := true },
    { coords := ![0, 0, 0], id := 2, dup := -1, marked := true },
    { coords := ![2, 2, 2], id := 3, dup := -1, marked := true }]⟩

/-- C9 witness sorted order (lexicographic by coords). -/
def w9_sorted : List Nat := [0, 2, 1, 3]

/-- C10 witness primitive with room to spare. -/
def w10_prim : Primitive := { primitive_init with sides := [0] }

/-- C10 witness primitive that is full (`MAX_SIDES` = 15 sides). -/
def w10_full : Primitive :=
  { primitive_init with sides := [0, 1, 2, 3, 4, 5, 6, 7, 8, 9, 10, 11, 12, 13, 14] }

/-! ## Helper lemmas -/

theorem updVertex_length (vs : List Vertex) (i : Nat) (f : Vertex → Vertex) :
    (updVertex vs i f).length = vs.length := by
  induction vs generalizing i with
  | nil => rfl
  | cons x t ih => cases i with
    | zero => rfl
    | succ n => simpa [updVertex] using ih n

theorem updVertex_get_self {vs : List Vertex} {i : Nat} {x : Vertex}
    (f : Vertex → Vertex) (h : vs.get? i = some x) :
    (updVertex vs i f).get? i = some (f x) := by
  induction vs generalizing i with
  | nil => simp at h
  | cons y t ih => cases i with
    | zero => simp_all [updVertex]
    | succ n => simpa [updVertex] using ih (h := by simpa using h)

theorem updVertex_get_other {vs : List Vertex} {i j : Nat}
    (f : Vertex → Vertex) (h : j ≠ i) :
    (updVertex vs i f).get? j = vs.get? j := by
  induction vs generalizing i j with
  | nil => rfl
  | cons y t ih => cases i with
    | zero => cases j with
      | zero => exact absurd rfl h
      | succ m => simp [updVertex]
    | succ n => cases j with
      | zero => simp [updVertex]
      | succ m => simpa [updVertex] using ih (j := m) (i := n) (by omega)

/-! ## Claim C10 -/

/-- Claim C10: for every primitive and every negative vertex index `v`,
`primitive_add_side` returns -1 and leaves the primitive unchanged, and
the same holds when the primitive already has `MAX_SIDES` = 15 sides. -/
theorem C10_add_side_rejects (p : Primitive) (v : Int)
    (h : v < 0 ∨ p.sides.length = MAX_SIDES) :
    primitive_add_side p v = (p, -1) := by
  unfold primitive_add_side
  rcases h with h | h
  · rw [if_neg (by omega)]
  · rw [MAX_SIDES] at h
    split_ifs with h1 h2
    · rw [MAX_SIDES] at h2; omega
    · rfl
    · rfl

/-- Witness for C10 at concrete inputs. -/
theorem C10_add_side_rejects_witness :
    primitive_add_side w10_prim (-3) = (w10_prim, -1) ∧
    primitive_add_side w10_full 2 = (w10_full, -1) :=
  ⟨C10_add_side_rejects w10_prim (-3) (Or.inl (by decide)),
   C10_add_side_rejects w10_full 2 (Or.inr (by decide))⟩

/-! ## Claim C4 -/

/-- Claim C4 counterexample: `primitive_reverse_sides` does *not*
invalidate the bounding-box cache: on a triangle whose bbox cache has been
established, `has_bbox` is still true after `primitive_reverse_sides`,
although the claim requires `has_bbox == false`. -/
theorem C4_reverse_keeps_bbox_counterexample :
    c4_prim.has_bbox = true ∧ (primitive_reverse_sides c4_prim).has_bbox = true := by
  with_unfolding_all decide

/-- Claim C4 (amended): `primitive_add_side` (when it succeeds) and
`primitive_delete_all` invalidate both caches; `primitive_reverse_sides`
invalidates only the cached normal and leaves the bounding-box cache flag
unchanged. -/
theorem C4_cache_invalidation (p : Primitive) (v : Int) :
    ((primitive_delete_all p).has_normal = false ∧
     (primitive_delete_all p).has_bbox = false) ∧
    (0 ≤ (primitive_add_side p v).2 →
      (primitive_add_side p v).1.has_normal = false ∧
      (primitive_add_side p v).1.has_bbox = false) ∧
    ((primitive_reverse_sides p).has_normal = false ∧
     (primitive_reverse_sides p).has_bbox = p.has_bbox) := by
  refine ⟨⟨rfl, rfl⟩, ?_, rfl, rfl⟩
  unfold primitive_add_side
  split_ifs <;> simp

/-- Witness for C4 at a concrete successful `primitive_add_side`. -/
theorem C4_cache_invalidation_witness :
    ((primitive_delete_all c4w_prim).has_normal = false ∧
     (primitive_delete_all c4w_prim).has_bbox = false) ∧
    ((primitive_add_side c4w_prim 7).1.has_normal = false ∧
     (primitive_add_side c4w_prim 7).1.has_bbox = false) ∧
    ((primitive_reverse_sides c4w_prim).has_normal = false ∧
     (primitive_reverse_sides c4w_prim).has_bbox = c4w_prim.has_bbox) :=
  ⟨(C4_cache_invalidation c4w_prim 7).1,
   (C4_cache_invalidation c4w_prim 7).2.1 (by decide),
   (C4_cache_invalidation c4w_prim 7).2.2⟩

/-! ## Claim C3 -/

/-- Claim C3 counterexample: `vertex_array_set_used` does *not* follow the
dup chain.  In `c3_pool`, vertex 1 duplicates vertex 0 (which is the
canonical vertex, `dup == -1`); after `set_used(1)` vertex 1 is marked but
the canonical vertex 0 is still unmarked. -/
theorem C3_set_used_counterexample :
    ((vertex_array_set_used c3_pool 1).vertices.get? 1).map Vertex.dup = some 0 ∧
    ((vertex_array_set_used c3_pool 1).vertices.get? 0).map Vertex.dup = some (-1) ∧
    ((vertex_array_set_used c3_pool 1).vertices.get? 1).map Vertex.marked = some true ∧
    ((vertex_array_set_used c3_pool 1).vertices.get? 0).map Vertex.marked = some false := by
  decide

/-- Claim C3 (amended): for every pool and in-range index `n`,
`vertex_array_set_used` marks vertex `n` itself (leaving its other fields
unchanged) and leaves every other vertex untouched; it does not follow the
dup chain (mark transfer to canonical vertices is done later by
`vertex_array_find_duplicates`). -/
theorem C3_set_used_marks_self (va : VertexArray) (n : Int) (vx : Vertex)
    (h : vertex_array_get_vertex va n = some vx) :
    vertex_array_get_vertex (vertex_array_set_used va n) n
      = some { vx with marked := true } ∧
    (∀ m : Int, m ≠ n →
      vertex_array_get_vertex (vertex_array_set_used va n) m
        = vertex_array_get_vertex va m) := by
  have hrange : 0 ≤ n ∧ n < (va.vertices.length : Int) := by
    by_contra hc
    rw [vertex_array_get_vertex, if_neg hc] at h
    exact Option.noConfusion h
  have hget : va.vertices.get? n.toNat = some vx := by
    rw [vertex_array_get_vertex, if_pos hrange] at h
    exact h
  have hset : vertex_array_set_used va n
      = ⟨updVertex va.vertices n.toNat (fun x => { x with marked := true })⟩ := by
    rw [vertex_array_set_used, h]
  have hlen : (vertex_array_set_used va n).vertices.length = va.vertices.length := by
    rw [hset]; exact updVertex_length _ _ _
  constructor
  · rw [vertex_array_get_vertex, hlen, if_pos hrange, hset]
    exact updVertex_get_self _ hget
  · intro m hm
    rw [vertex_array_get_vertex, vertex_array_get_vertex, hlen]
    by_cases hmr : 0 ≤ m ∧ m < (va.vertices.length : Int)
    · rw [if_pos hmr, if_pos hmr, hset]
      exact updVertex_get_other _ (by omega)
    · rw [if_neg hmr, if_neg hmr]

/-- Witness for C3 at a concrete pool and index. -/
theorem C3_set_used_marks_self_witness :
    vertex_array_get_vertex (vertex_array_set_used c3w_pool 1) 1
      = some { plainVertex ![(1 : ℚ), 0, 0] 1 with marked := true } ∧
    (∀ m : Int, m ≠ 1 →
      vertex_array_get_vertex (vertex_array_set_used c3w_pool 1) m
        = vertex_array_get_vertex c3w_pool m) :=
  C3_set_used_marks_self c3w_pool 1 (plainVertex ![(1 : ℚ), 0, 0] 1)
    (by with_unfolding_all decide)

/-! ## Claim C1 -/

/-- Claim C1 fails on the code: on the triangle `c1_prim` over `c1_pool`
(at least 3 sides, all vertex fetches valid), splitting along the line
through pool vertices 3 and 4 — which crosses edge A->B away from any
corner and crosses edge B->C within ε of the corner B — completes with
`split = true`, yet the `out` polygon has only 2 sides ([5, 1]), so the
assertion `primitive_get_num_sides(out) > 2` at Primitive.c:912 (and the
claimed postcondition that both resulting polygons have at least 3 sides)
is violated.  The retained polygon gets 4 sides. -/
theorem C1_split_two_sided_result :
    (primitive_split c1_prim 3 4 c1_pool planeXY).map
      (fun r => (r.split, r.out.sides, r.primitive.sides))
      = some (true, [5, 1], [0, 5, 1, 2]) := by
  with_unfolding_all decide

/-! ## Claim C8 -/

/-- Claim C8: `vector_find_plane` picks an axis `d` of maximum absolute
normal component and produces the plane with `z = d`,
`x = (d==0 ? 2 : 0)`, `y = (d==1 ? 2 : 1)`; consequently (x,y,z) is a
permutation of {0,1,2} (stated as pairwise distinctness of the three
`Fin 3` values, which for three values of `Fin 3` is exactly being a
permutation of {0,1,2}). -/
theorem C8_find_plane_max_axis_permutation (v : Vec3) :
    (∀ i : Fin 3, coord_abs (v i) ≤ coord_abs (v (vector_find_plane v).z)) ∧
    (vector_find_plane v).x = (if (vector_find_plane v).z = 0 then 2 else 0) ∧
    (vector_find_plane v).y = (if (vector_find_plane v).z = 1 then 2 else 1) ∧
    (vector_find_plane v).x ≠ (vector_find_plane v).y ∧
    (vector_find_plane v).y ≠ (vector_find_plane v).z ∧
    (vector_find_plane v).x ≠ (vector_find_plane v).z := by
  by_cases h1 : coord_abs (v 1) > coord_abs (v 0)
  · by_cases h2 : coord_abs (v 2) > coord_abs (v 1)
    · have hpl : vector_find_plane v = ⟨0, 1, 2⟩ := by
        simp [vector_find_plane, h1, h2]
      rw [hpl]
      exact ⟨fun i => by
          fin_cases i <;>
            [exact le_of_lt (lt_trans h1 h2); exact le_of_lt h2; exact le_refl _],
        by decide, by decide, by decide, by decide, by decide⟩
    · have hpl : vector_find_plane v = ⟨0, 2, 1⟩ := by
        simp [vector_find_plane, h1, h2]
      rw [hpl]
      push_neg at h2
      exact ⟨fun i => by
          fin_cases i <;> [exact le_of_lt h1; exact le_refl _; exact h2],
        by decide, by decide, by decide, by decide, by decide⟩
  · by_cases h3 : coord_abs (v 2) > coord_abs (v 0)
    · have hpl : vector_find_plane v = ⟨0, 1, 2⟩ := by
        simp [vector_find_plane, h1, h3]
      rw [hpl]
      push_neg at h1
      exact ⟨fun i => by
          fin_cases i <;>
            [exact le_of_lt h3; exact le_trans h1 (le_of_lt h3); exact le_refl _],
        by decide, by decide, by decide, by decide, by decide⟩
    · have hpl : vector_find_plane v = ⟨2, 1, 0⟩ := by
        simp [vector_find_plane, h1, h3]
      rw [hpl]
      push_neg at h1
      push_neg at h3
      exact ⟨fun i => by
          fin_cases i <;> [exact le_refl _; exact h1; exact h3],
        by decide, by decide, by decide, by decide, by decide⟩

/-! ## Claim C7 -/

/-- Claim C7 counterexample: for AB = (0,0,0)..(20,1/100,0) (sloped under
the ε-classification, gradient 1/2000) and CD = (0,5,0)..(1,5,0)
(horizontal), the two lines fall in none of the claim's three parallel
classes, yet `vector_intersect` returns none (the code compares the
gradients whenever CD is merely not ε-vertical, and 1/2000 is ε-equal
to 0). -/
theorem C7_intersect_counterexample :
    (vector_intersect c7A c7B c7C c7D planeXY).isNone = true ∧
    specParallel c7A c7B c7C c7D planeXY = false := by
  with_unfolding_all decide

/-- Claim C7 (amended): `vector_intersect` returns none exactly when both
lines are ε-vertical, or AB is not ε-vertical but ε-horizontal and CD is
not ε-vertical but ε-horizontal, or AB is neither ε-vertical nor
ε-horizontal, CD is not ε-vertical, and the gradients are ε-equal (this
differs from the claim when exactly one line is ε-sloped); in every other
case it returns an intersection point, and every division performed is by
a quantity the ε-guards keep nonzero (the last four conjuncts cover the
divisors `bx - ax`, `dx - cx`, `m2` and `m1 - m2`). -/
theorem C7_intersect_none_iff (va vb vc vd : Vec3) (p : Plane) :
    ((vector_intersect va vb vc vd p).isNone = true ↔
      codeParallel va vb vc vd p = true) ∧
    (coord_equal (vector_x va p) (vector_x vb p) = false →
      vector_x vb p - vector_x va p ≠ 0) ∧
    (coord_equal (vector_x vc p) (vector_x vd p) = false →
      vector_x vd p - vector_x vc p ≠ 0) ∧
    (coord_equal (vector_x vc p) (vector_x vd p) = false →
      coord_equal (vector_y vc p) (vector_y vd p) = false →
      vector_y_gradient vc vd p ≠ 0) ∧
    (coord_equal (vector_y_gradient va vb p) (vector_y_gradient vc vd p) = false →
      vector_y_gradient va vb p - vector_y_gradient vc vd p ≠ 0) := by
  have hne : ∀ a b : Coord, coord_equal a b = false → b - a ≠ 0 := by
    intro a b h hab
    have : a = b := by linarith [sub_eq_zero.mp hab]
    rw [coord_equal, this] at h
    simp [coord_abs, MAX_FLT_ERR] at h
  refine ⟨?_, hne _ _, hne _ _, ?_, fun h => fun hab => hne _ _ h (by linarith)⟩
  · unfold vector_intersect codeParallel
    by_cases h1 : coord_equal (vector_x va p) (vector_x vb p) <;>
      by_cases h2 : coord_equal (vector_x vc p) (vector_x vd p) <;>
        by_cases h3 : coord_equal (vector_y va p) (vector_y vb p) <;>
          by_cases h4 : coord_equal (vector_y vc p) (vector_y vd p) <;>
            by_cases h5 : coord_equal (vector_y_gradient va vb p)
              (vector_y_gradient vc vd p) <;>
              simp [h1, h2, h3, h4, h5]
  · intro hx hy
    rw [vector_y_gradient]
    exact div_ne_zero (hne _ _ hy) (hne _ _ hx)

/-- Witness for C7 at concrete sloped, non-parallel lines, discharging the
hypothesis of each conditional conjunct. -/
theorem C7_intersect_none_iff_witness :
    ((vector_intersect w7A w7B w7C w7D planeXY).isNone = true ↔
      codeParallel w7A w7B w7C w7D planeXY = true) ∧
    (vector_x w7B planeXY - vector_x w7A planeXY ≠ 0) ∧
    (vector_x w7D planeXY - vector_x w7C planeXY ≠ 0) ∧
    (vector_y_gradient w7C w7D planeXY ≠ 0) ∧
    (vector_y_gradient w7A w7B planeXY - vector_y_gradient w7C w7D planeXY ≠ 0) :=
  ⟨(C7_intersect_none_iff w7A w7B w7C w7D planeXY).1,
   (C7_intersect_none_iff w7A w7B w7C w7D planeXY).2.1
     (by with_unfolding_all decide),
   (C7_intersect_none_iff w7A w7B w7C w7D planeXY).2.2.1
     (by with_unfolding_all decide),
   (C7_intersect_none_iff w7A w7B w7C w7D planeXY).2.2.2.1
     (by with_unfolding_all decide) (by with_unfolding_all decide),
   (C7_intersect_none_iff w7A w7B w7C w7D planeXY).2.2.2.2
     (by with_unfolding_all decide)⟩

/-! ## Claim C6 -/

theorem rot_mod_cancel {n j t : Nat} (hj : j < n) (ht : t < n) :
    (j + ((n - j) % n + t) % n) % n = t := by
  rcases Nat.eq_zero_or_pos j with rfl | hjpos
  · simp [Nat.mod_self, Nat.mod_eq_of_lt ht]
  · rw [Nat.mod_eq_of_lt (show n - j < n by omega), Nat.add_mod_mod]
    have he : j + (n - j + t) = n + t := by omega
    rw [he, Nat.add_mod_left, Nat.mod_eq_of_lt ht]

theorem findIdxAux_shift (l : List Int) (tgt : Int) (k : Nat) :
    findIdxAux l tgt (k+1) = (findIdxAux l tgt k).map (· + 1) := by
  induction l generalizing k with
  | nil => rfl
  | cons x t ih =>
    by_cases hx : x = tgt
    · simp [findIdxAux, hx]
    · simp only [findIdxAux, if_neg hx]
      exact ih (k+1)

theorem findIdxAux_some {l : List Int} {tgt : Int} {k j : Nat}
    (h : findIdxAux l tgt k = some j) : ∃ i, j = k + i ∧ l.get? i = some tgt := by
  induction l generalizing k with
  | nil => exact Option.noConfusion h
  | cons x t ih =>
    rw [findIdxAux] at h
    by_cases hx : x = tgt
    · rw [if_pos hx] at h
      have hkj : k = j := by injection h
      exact ⟨0, by omega, by simp [hx]⟩
    · rw [if_neg hx] at h
      obtain ⟨i, hi, hget⟩ := ih h
      exact ⟨i + 1, by omega, by simpa using hget⟩

theorem findFirstIdx_some {l : List Int} {tgt : Int} {j : Nat}
    (h : findFirstIdx l tgt = some j) : j < l.length ∧ l.get? j = some tgt := by
  obtain ⟨i, hi, hget⟩ := findIdxAux_some h
  have : i = j := by omega
  subst this
  exact ⟨List.get?_eq_some.mp hget |>.1, hget⟩

theorem findFirstIdx_nodup {l : List Int} {i : Nat} {tgt : Int}
    (hnd : l.Nodup) (h : l.get? i = some tgt) : findFirstIdx l tgt = some i := by
  induction l generalizing i with
  | nil => exact Option.noConfusion h
  | cons x t ih =>
    cases i with
    | zero =>
      have hx : x = tgt := by simpa using h
      simp [findFirstIdx, findIdxAux, hx]
    | succ m =>
      have h' : t.get? m = some tgt := by simpa using h
      have hx : x ≠ tgt := by
        intro he
        exact (List.nodup_cons.mp hnd).1 (he ▸ List.get?_mem h')
      rw [findFirstIdx, findIdxAux, if_neg hx, findIdxAux_shift,
        ← findFirstIdx, ih (List.nodup_cons.mp hnd).2 h']
      rfl

theorem getSideN_get? {p : Primitive} {t : Nat} (h : t < p.sides.length) :
    p.sides.get? t = some (getSideN p t) := by
  rw [getSideN, List.getD_eq_get?, List.get?_eq_get h]
  rfl

/-- Claim C6 counterexample: `primitive_equal` is not symmetric.  With the
repeated vertex index 0, `c6y = [2,0,0,1]` matches into `c6x = [0,1,2,0]`
(first occurrence of 2 in `c6x` is position 2, and the cyclic comparison
succeeds), but `c6x`'s first vertex 0 is first found at position 1 of
`c6y`, where the cyclic comparison fails. -/
theorem C6_equal_not_symmetric_counterexample :
    primitive_equal c6x c6y = true ∧ primitive_equal c6y c6x = false := by
  decide

/-- Claim C6 (amended): `primitive_equal` is reflexive for every
primitive; for primitives whose side lists contain no repeated vertex
index, `primitive_equal q p` implies `primitive_equal p q`, and
`primitive_equal p (reverse p)` is false when `nsides > 2`.  (Symmetry and
the reverse property both fail for side lists with repeated indices, as
the counterexample shows.) -/
theorem C6_equal_props :
    (∀ p : Primitive, primitive_equal p p = true) ∧
    (∀ p q : Primitive, p.sides.Nodup → q.sides.Nodup →
      primitive_equal q p = true → primitive_equal p q = true) ∧
    (∀ p : Primitive, 2 < p.sides.length → p.sides.Nodup →
      primitive_equal p (primitive_reverse_sides p) = false) := by
  refine ⟨?_, ?_, ?_⟩
  · -- reflexivity
    intro p
    rw [primitive_equal]
    by_cases hn0 : p.sides.length = 0
    · rw [if_neg (by simp), if_pos hn0]
    · have hfind : findFirstIdx p.sides (getSideN p 0) = some 0 := by
        rcases hs : p.sides with _ | ⟨x, t⟩
        · rw [hs] at hn0; simp at hn0
        · have hx : getSideN p 0 = x := by rw [getSideN, hs]; rfl
          rw [hx, findFirstIdx, findIdxAux, if_pos rfl]
      rw [if_neg (by simp), if_neg hn0, hfind]
      apply decide_eq_true
      intro t ht _
      have : (0 + t) % p.sides.length = t := by
        rw [Nat.zero_add, Nat.mod_eq_of_lt ht]
      rw [this]
  · -- symmetry on duplicate-free side lists
    intro p q hnp hnq hqp
    rw [primitive_equal] at hqp
    by_cases hlen : p.sides.length = q.sides.length
    · by_cases hn0 : p.sides.length = 0
      · rw [primitive_equal, if_neg (by omega), if_pos (by omega)]
      · rw [if_neg (by omega), if_neg hn0] at hqp
        rcases hfind : findFirstIdx q.sides (getSideN p 0) with _ | j
        · rw [hfind] at hqp; exact Bool.noConfusion hqp
        · rw [hfind] at hqp
          have H := of_decide_eq_true hqp
          obtain ⟨hj, hgetj⟩ := findFirstIdx_some hfind
          set n := p.sides.length with hn
          have hjn : j < n := by omega
          have hall : ∀ t, t < n → getSideN p t = getSideN q ((j + t) % n) := by
            intro t ht
            rcases Nat.eq_zero_or_pos t with rfl | ht1
            · have he : (j + 0) % n = j := by
                rw [Nat.add_zero, Nat.mod_eq_of_lt hjn]
              rw [he]
              rw [getSideN_get? (p := q) (t := j) (by omega)] at hgetj
              exact (Option.some.inj hgetj).symm
            · have := H t ht ht1
              rw [← hlen] at this
              exact this
          -- q is p rotated back by j
          have hrev : ∀ t, t < n → getSideN q t = getSideN p (((n - j) % n + t) % n) := by
            intro t ht
            have hu : (((n - j) % n + t) % n) < n := Nat.mod_lt _ (by omega)
            rw [hall _ hu, rot_mod_cancel hjn ht]
          have hq0 : p.sides.get? ((n - j) % n) = some (getSideN q 0) := by
            have h0 := hrev 0 (by omega)
            have hidx : ((n - j) % n + 0) % n = (n - j) % n := by
              rw [Nat.add_zero, Nat.mod_eq_of_lt (Nat.mod_lt _ (by omega))]
            rw [hidx] at h0
            rw [h0]
            exact getSideN_get? (show (n - j) % n < p.sides.length from
              Nat.mod_lt _ (by omega))
          have hfind' : findFirstIdx p.sides (getSideN q 0) = some ((n - j) % n) :=
            findFirstIdx_nodup hnp hq0
          rw [primitive_equal, if_neg (by omega), if_neg (by omega), hfind']
          apply decide_eq_true
          intro t ht ht1
          exact hrev t (by omega)
    · rw [if_pos hlen] at hqp; exact Bool.noConfusion hqp
  · -- equal(p, reverse p) is false for nsides > 2 without duplicates
    intro p h2 hnd
    rw [primitive_equal]
    set n := p.sides.length with hn
    have hrevlen : (primitive_reverse_sides p).sides.length = n := by
      simp [primitive_reverse_sides]
    have hn1 : n - 1 < n := by omega
    have hrev0 : (primitive_reverse_sides p).sides.get? 0 = p.sides.get? (n - 1) := by
      show p.sides.reverse.get? 0 = p.sides.get? (n - 1)
      rw [List.get?_reverse (by omega)]
      have he : p.sides.length - 1 - 0 = n - 1 := by omega
      rw [he]
    have hfirst : getSideN (primitive_reverse_sides p) 0 = getSideN p (n - 1) := by
      have h1 := getSideN_get? (p := primitive_reverse_sides p) (t := 0) (by omega)
      have h2' := getSideN_get? (p := p) (t := n - 1) (by omega)
      rw [h1, h2'] at hrev0
      exact Option.some.inj hrev0
    have hfind : findFirstIdx p.sides (getSideN (primitive_reverse_sides p) 0)
        = some (n - 1) := by
      rw [hfirst]
      exact findFirstIdx_nodup hnd (getSideN_get? (by omega))
    rw [if_neg (by omega), if_neg (by omega), hfind]
    apply decide_eq_false
    intro Hall
    have h1 := Hall 1 (by omega) (le_refl 1)
    -- left side: reverse[1] = p[n-2]
    have hrev1 : (primitive_reverse_sides p).sides.get? 1 = p.sides.get? (n - 2) := by
      show p.sides.reverse.get? 1 = p.sides.get? (n - 2)
      rw [List.get?_reverse (by omega)]
      have he : p.sides.length - 1 - 1 = n - 2 := by omega
      rw [he]
    have hleft : getSideN (primitive_reverse_sides p) 1 = getSideN p (n - 2) := by
      have ha := getSideN_get? (p := primitive_reverse_sides p) (t := 1) (by omega)
      have hb := getSideN_get? (p := p) (t := n - 2) (by omega)
      rw [ha, hb] at hrev1
      exact Option.some.inj hrev1
    -- right side: index (n-1+1) % n = 0
    have hidx : (n - 1 + 1) % n = 0 := by
      have : n - 1 + 1 = n := by omega
      rw [this, Nat.mod_self]
    rw [hleft, hidx] at h1
    -- so p[n-2] = p[0], contradicting Nodup since n - 2 ≠ 0
    have hget : p.sides.get? (n - 2) = p.sides.get? 0 := by
      rw [getSideN_get? (p := p) (t := n - 2) (by omega),
        getSideN_get? (p := p) (t := 0) (by omega)]
      exact congrArg some h1
    have := List.get?_inj (by omega) hnd hget
    omega

/-- Witness for C6: reflexivity on a concrete triangle, symmetry between a
triangle and its rotation, and the reverse inequality, with the
duplicate-freeness hypotheses discharged concretely. -/
theorem C6_equal_props_witness :
    primitive_equal w6p w6p = true ∧
    primitive_equal w6p w6q = true ∧
    primitive_equal w6p (primitive_reverse_sides w6p) = false :=
  ⟨C6_equal_props.1 w6p,
   C6_equal_props.2.1 w6p w6q (by decide) (by decide) (by decide),
   C6_equal_props.2.2 w6p (by decide) (by decide)⟩

/-! ## Claim C5 -/

theorem coord_less_than_false {a b : Coord} (h : b ≤ a) :
    coord_less_than a b = false := by
  rw [coord_less_than]
  simp only [decide_eq_false_iff_not, not_le]
  rw [MAX_FLT_ERR]
  linarith

theorem bbox_go_spec {va : VertexArray} {l : List Int} {lo hi lo' hi' : Vec3}
    (h : bbox_go va l lo hi = some (lo', hi')) :
    (∀ d, lo' d ≤ lo d) ∧ (∀ d, hi d ≤ hi' d) ∧
    (∀ s ∈ l, ∃ c, vertex_array_get_coords va s = some c ∧
      ∀ d, lo' d ≤ c d ∧ c d ≤ hi' d) := by
  induction l generalizing lo hi with
  | nil =>
    rw [bbox_go] at h
    injection h with h
    injection h with h1 h2
    subst h1; subst h2
    exact ⟨fun d => le_refl _, fun d => le_refl _, by simp⟩
  | cons s t ih =>
    rw [bbox_go] at h
    rcases hc : vertex_array_get_coords va s with _ | c
    · rw [hc] at h; exact Option.noConfusion h
    · rw [hc] at h
      obtain ⟨hlo, hhi, hmem⟩ := ih h
      have hlo2 : ∀ d, lo' d ≤ lo d := by
        intro d
        refine le_trans (hlo d) ?_
        by_cases hd : c d < lo d <;> simp [hd]
        exact le_of_lt hd
      have hhi2 : ∀ d, hi d ≤ hi' d := by
        intro d
        refine le_trans ?_ (hhi d)
        by_cases hd : c d > hi d <;> simp [hd]
        exact le_of_lt hd
      refine ⟨hlo2, hhi2, ?_⟩
      intro s' hs'
      rcases List.mem_cons.mp hs' with rfl | hs'
      · refine ⟨c, hc, fun d => ⟨?_, ?_⟩⟩
        · refine le_trans (hlo d) ?_
          by_cases hd : c d < lo d
          · simp [hd]
          · simp only [hd, if_false]
            exact le_of_not_lt hd
        · refine le_trans ?_ (hhi d)
          by_cases hd : c d > hi d
          · simp [hd]
          · simp only [hd, if_false]
            exact le_of_not_lt hd
      · exact hmem s' hs'

theorem make_bbox_spec {p : Primitive} {va : VertexArray} {lo hi : Vec3}
    (h : primitive_make_bbox p va = some (lo, hi)) :
    ∀ s ∈ p.sides, ∃ c, vertex_array_get_coords va s = some c ∧
      ∀ d, lo d ≤ c d ∧ c d ≤ hi d := by
  rcases hs : p.sides with _ | ⟨s0, rest⟩
  · simp only [primitive_make_bbox, hs] at h
    exact Option.noConfusion h
  · simp only [primitive_make_bbox, hs] at h
    rcases hc : vertex_array_get_coords va s0 with _ | c0
    · rw [hc] at h; exact Option.noConfusion h
    · rw [hc] at h
      obtain ⟨hlo, hhi, hmem⟩ := bbox_go_spec h
      intro s' hs'
      rcases List.mem_cons.mp hs' with rfl | hs'
      · exact ⟨c0, hc, fun d => ⟨hlo d, hhi d⟩⟩
      · exact hmem s' hs'

theorem cp_loop_mem {va : VertexArray} {v : Int} {pl : Plane}
    {px py ty : Coord} {l : List Int}
    (hv : v ∈ l) (hc : ∀ s ∈ l, ∃ c, vertex_array_get_coords va s = some c) :
    ∀ ex ey ins, cp_loop va v pl px py ty l ex ey ins = true := by
  induction l with
  | nil => exact absurd hv (List.not_mem_nil v)
  | cons v2 rest ih =>
    intro ex ey ins
    by_cases hveq : v2 = v
    · rw [cp_loop, if_pos hveq]
    · have hv' : v ∈ rest := by
        rcases List.mem_cons.mp hv with rfl | hv'
        · exact absurd rfl hveq
        · exact hv'
      have hc' : ∀ s ∈ rest, ∃ c, vertex_array_get_coords va s = some c :=
        fun s hs => hc s (List.mem_cons_of_mem _ hs)
      obtain ⟨c2, hc2⟩ := hc v2 (List.mem_cons_self _ _)
      simp only [cp_loop, hc2, hveq, if_false]
      split_ifs <;> first | rfl | exact ih hv' hc' _ _ _

/-- Claim C5: `primitive_contains_point` returns true for every vertex
index `v` that occurs in the polygon's sides array, for every polygon with
at least 3 sides whose bounding-box cache is established (the cached
`low`/`high` are the ones `primitive_make_bbox` computes); and it returns
false for every primitive with fewer than 3 sides, for every `v`. -/
theorem C5_contains_point_of_mem :
    (∀ (p : Primitive) (va : VertexArray) (pl : Plane) (v : Int),
      3 ≤ p.sides.length → p.has_bbox = true →
      primitive_make_bbox p va = some (p.low, p.high) →
      v ∈ p.sides →
      primitive_contains_point p va v pl = true) ∧
    (∀ (p : Primitive) (va : VertexArray) (pl : Plane) (v : Int),
      p.sides.length < 3 →
      primitive_contains_point p va v pl = false) := by
  constructor
  · intro p va pl v h3 _ hmk hv
    have hspec := make_bbox_spec hmk
    rw [primitive_contains_point, if_neg (by omega)]
    by_cases hlast : primitive_get_side p ((p.sides.length : Int) - 1) = v
    · rw [if_pos hlast]
    · rw [if_neg hlast]
      have hlastmem : primitive_get_side p ((p.sides.length : Int) - 1) ∈ p.sides := by
        rw [primitive_get_side, if_pos (by constructor <;> [omega; omega])]
        have hlt : ((p.sides.length : Int) - 1).toNat < p.sides.length := by omega
        rw [getSideN, List.getD_eq_get?, List.get?_eq_get hlt]
        exact List.get_mem _ _ _
      obtain ⟨ce, hce, _⟩ := hspec _ hlastmem
      obtain ⟨cv, hcv, hbv⟩ := hspec v hv
      simp only [hce, hcv]
      have hguard : (!vector_xy_greater_or_equal cv p.low pl ||
          !vector_xy_greater_or_equal p.high cv pl) = false := by
        simp only [vector_xy_greater_or_equal, vector_x, vector_y]
        rw [coord_less_than_false (hbv pl.x).1, coord_less_than_false (hbv pl.y).1,
          coord_less_than_false (hbv pl.x).2, coord_less_than_false (hbv pl.y).2]
        rfl
      rw [hguard]
      simp only [Bool.false_eq_true, if_false]
      exact cp_loop_mem hv (fun s hs => (hspec s hs).imp fun c hc => hc.1) _ _ _
  · intro p va pl v hlt
    rw [primitive_contains_point, if_pos (by omega)]

/-- Witness for C5: the triangle (0,0,0),(4,0,0),(0,4,0) contains its own
vertex 1, and a 2-sided primitive contains nothing. -/
theorem C5_contains_point_of_mem_witness :
    primitive_contains_point w5_prim w5_pool 1 planeXY = true ∧
    primitive_contains_point w5_line w5_pool 0 planeXY = false :=
  ⟨C5_contains_point_of_mem.1 w5_prim w5_pool planeXY 1
     (by with_unfolding_all decide) (by with_unfolding_all decide)
     (by with_unfolding_all decide) (by with_unfolding_all decide),
   C5_contains_point_of_mem.2 w5_line w5_pool planeXY 0 (by decide)⟩

/-! ## Claim C9 -/

theorem updVertex_get? (vs : List Vertex) (i : Nat) (f : Vertex → Vertex) (j : Nat) :
    (updVertex vs i f).get? j = if j = i then (vs.get? j).map f else vs.get? j := by
  by_cases hj : j = i
  · subst hj
    rcases hv : vs.get? j with _ | x
    · rw [if_pos rfl]
      simp only [Option.map_none']
      rcases Nat.lt_or_ge j vs.length with hlt | hge
      · rw [List.get?_eq_get hlt] at hv; exact Option.noConfusion hv
      · exact List.get?_eq_none.mpr (by rw [updVertex_length]; omega)
    · rw [if_pos rfl]
      exact updVertex_get_self f hv
  · rw [if_neg hj]
    exact updVertex_get_other f hj

theorem linkStep_length (vs : List Vertex) (last w : Nat) :
    (linkStep vs last w).length = vs.length := by
  simp only [linkStep]
  split_ifs <;> simp [updVertex_length]

theorem linkStep_get?_other {vs : List Vertex} {last w j : Nat}
    (hjw : j ≠ w) (hjl : j ≠ last) :
    (linkStep vs last w).get? j = vs.get? j := by
  simp only [linkStep]
  split_ifs <;>
    simp only [updVertex_get?, if_neg hjw, if_neg hjl]

theorem linkStep_get?_w {vs : List Vertex} {last w : Nat} {vx : Vertex}
    (h : (linkStep vs last w).get? w = some vx) : vx.marked = false := by
  simp only [linkStep] at h
  rcases hv : vs.get? w with _ | x
  · rw [hv] at h
    simp only [Option.map_none', Option.getD_none, if_false, Bool.false_eq_true] at h
    rw [updVertex_get?, if_pos rfl, hv] at h
    exact Option.noConfusion h
  · rw [hv] at h
    simp only [Option.map_some', Option.getD_some] at h
    by_cases hm : x.marked
    · rw [if_pos hm] at h
      rw [updVertex_get?, if_pos rfl] at h
      rcases hv2 : (updVertex (updVertex vs w fun y => { y with dup := (last:Int) })
          last fun y => { y with marked := true }).get? w with _ | z
      · rw [hv2] at h; exact Option.noConfusion h
      · rw [hv2] at h
        simp only [Option.map_some'] at h
        injection h with h
        rw [← h]
    · rw [if_neg hm] at h
      rw [updVertex_get?, if_pos rfl, hv] at h
      simp only [Option.map_some'] at h
      injection h with h
      rw [← h]
      simpa using hm

theorem linkStep_id (vs : List Vertex) (last w j : Nat) :
    ((linkStep vs last w).get? j).map Vertex.id = (vs.get? j).map Vertex.id := by
  simp only [linkStep]
  split_ifs <;> simp only [updVertex_get?] <;> split_ifs <;>
    cases vs.get? j <;> simp

theorem linkStep_dup_other {vs : List Vertex} {last w j : Nat} (hjw : j ≠ w) :
    ((linkStep vs last w).get? j).map Vertex.dup = (vs.get? j).map Vertex.dup := by
  simp only [linkStep]
  split_ifs <;> simp only [updVertex_get?, if_neg hjw] <;> split_ifs <;>
    cases vs.get? j <;> simp

theorem findDupsGo_marked_dup :
    ∀ (rest : List Nat) (vs : List Vertex) (last n : Nat),
    (last :: rest).Nodup →
    (∀ i vx, vs.get? i = some vx → vx.marked = true → vx.dup = -1) →
    (∀ vx, vs.get? last = some vx → vx.dup = -1) →
    (∀ w ∈ rest, ∀ vx, vs.get? w = some vx → vx.dup = -1) →
    ∀ i vx, (findDupsGo vs last rest n).1.get? i = some vx →
      vx.marked = true → vx.dup = -1 := by
  intro rest
  induction rest with
  | nil =>
    intro vs last n _ hinv _ _ i vx h hm
    exact hinv i vx h hm
  | cons w rest' ih =>
    intro vs last n hnd hinv hlast hrest
    have hndtl : last ∉ w :: rest' ∧ (w :: rest').Nodup := List.nodup_cons.mp hnd
    have hndw : w ∉ rest' ∧ rest'.Nodup := List.nodup_cons.mp hndtl.2
    have hwlast : (w : Nat) ≠ last := fun he =>
      hndtl.1 (he ▸ List.mem_cons_self _ _)
    rw [findDupsGo]
    rcases hcl : (vs.get? last).map Vertex.coords with _ | a
    · exact fun i vx h hm => hinv i vx h hm
    · rcases hcw : (vs.get? w).map Vertex.coords with _ | b
      · exact fun i vx h hm => hinv i vx h hm
      · dsimp only
        by_cases heq : vector_equal a b
        · rw [if_pos heq]
          have hlinkinv : ∀ i vx, (linkStep vs last w).get? i = some vx →
              vx.marked = true → vx.dup = -1 := by
            intro i vx h hm
            by_cases hiw : i = w
            · subst hiw
              rw [linkStep_get?_w h] at hm
              exact Bool.noConfusion hm
            · by_cases hil : i = last
              · subst hil
                have hdup := @linkStep_dup_other vs i w i hiw
                rw [h] at hdup
                rcases hv : vs.get? i with _ | vy
                · rw [hv] at hdup; exact Option.noConfusion hdup
                · rw [hv] at hdup
                  simp only [Option.map_some'] at hdup
                  injection hdup with hdup
                  rw [hdup]
                  exact hlast vy hv
              · rw [linkStep_get?_other hiw hil] at h
                exact hinv i vx h hm
          have hlinklast : ∀ vx, (linkStep vs last w).get? last = some vx →
              vx.dup = -1 := by
            intro vx h
            have hdup := @linkStep_dup_other vs last w last
              (fun he => hwlast he.symm)
            rw [h] at hdup
            rcases hv : vs.get? last with _ | vy
            · rw [hv] at hdup; exact Option.noConfusion hdup
            · rw [hv] at hdup
              simp only [Option.map_some'] at hdup
              injection hdup with hdup
              rw [hdup]
              exact hlast vy hv
          have hlinkrest : ∀ w' ∈ rest', ∀ vx,
              (linkStep vs last w).get? w' = some vx → vx.dup = -1 := by
            intro w' hw' vx h
            have hw'w : w' ≠ w := fun he => hndw.1 (he ▸ hw')
            have hw'l : w' ≠ last := fun he =>
              hndtl.1 (he ▸ List.mem_cons_of_mem _ hw')
            rw [linkStep_get?_other hw'w hw'l] at h
            exact hrest w' (List.mem_cons_of_mem _ hw') vx h
          exact ih (linkStep vs last w) last (n+1)
            (List.nodup_cons.mpr ⟨fun he => hndtl.1 (List.mem_cons_of_mem _ he),
              hndw.2⟩)
            hlinkinv hlinklast hlinkrest
        · rw [if_neg heq]
          exact ih vs w n hndtl.2 hinv
            (hrest w (List.mem_cons_self _ _))
            (fun w' hw' => hrest w' (List.mem_cons_of_mem _ hw'))

theorem findDupsGo_id :
    ∀ (rest : List Nat) (vs : List Vertex) (last n j : Nat),
    ((findDupsGo vs last rest n).1.get? j).map Vertex.id
      = (vs.get? j).map Vertex.id := by
  intro rest
  induction rest with
  | nil => intro vs last n j; rfl
  | cons w rest' ih =>
    intro vs last n j
    rw [findDupsGo]
    rcases hcl : (vs.get? last).map Vertex.coords with _ | a
    · rfl
    · rcases hcw : (vs.get? w).map Vertex.coords with _ | b
      · rfl
      · dsimp only
        by_cases heq : vector_equal a b
        · rw [if_pos heq, ih, linkStep_id]
        · rw [if_neg heq, ih]

theorem findDupsGo_length :
    ∀ (rest : List Nat) (vs : List Vertex) (last n : Nat),
    (findDupsGo vs last rest n).1.length = vs.length := by
  intro rest
  induction rest with
  | nil => intro vs last n; rfl
  | cons w rest' ih =>
    intro vs last n
    rw [findDupsGo]
    rcases hcl : (vs.get? last).map Vertex.coords with _ | a
    · rfl
    · rcases hcw : (vs.get? w).map Vertex.coords with _ | b
      · rfl
      · dsimp only
        by_cases heq : vector_equal a b
        · rw [if_pos heq, ih, linkStep_length]
        · rw [if_neg heq, ih]

theorem renumber_go_spec :
    ∀ (vs : List Vertex) (next pos : Nat),
    (∀ k vx, vs.get? k = some vx → vx.id = ((pos + k : Nat) : Int)) →
    ((renumber_go vs next pos).1.length = vs.length) ∧
    ((renumber_go vs next pos).2 = next + countMarked vs) ∧
    (∀ k vx, vs.get? k = some vx →
      (renumber_go vs next pos).1.get? k =
        some (if vx.marked then
          { vx with id := ((next + countMarked (vs.take k) : Nat) : Int) }
          else vx)) := by
  intro vs
  induction vs with
  | nil =>
    intro next pos _
    refine ⟨rfl, by simp [renumber_go, countMarked], ?_⟩
    intro k vx h
    exact Option.noConfusion h
  | cons x t ih =>
    intro next pos hid
    have hid0 : x.id = (pos : Int) := by
      have := hid 0 x rfl
      simpa using this
    have hid' : ∀ k vx, t.get? k = some vx → vx.id = ((pos + 1 + k : Nat) : Int) := by
      intro k vx h
      have := hid (k+1) vx (by simpa using h)
      rw [this]
      congr 1
      omega
    rcases hm : x.marked with _ | _
    · -- unmarked
      rw [renumber_go]
      rw [if_neg (by rw [hm]; exact Bool.noConfusion)]
      obtain ⟨hlen, hK, hform⟩ := ih next (pos+1) hid'
      refine ⟨by simpa using hlen, ?_, ?_⟩
      · have hcnt : countMarked (x :: t) = countMarked t := by
          rw [countMarked, List.countP_cons_of_neg]
          · rfl
          · simp [hm]
        simpa [hcnt] using hK
      · intro k vx h
        cases k with
        | zero =>
          have hx : vx = x := by injection h with h; exact h.symm
          subst hx
          simp [hm]
        | succ k' =>
          have h' : t.get? k' = some vx := by simpa using h
          have := hform k' vx h'
          have htake : countMarked ((x :: t).take (k'+1)) = countMarked (t.take k') := by
            rw [List.take_succ_cons, countMarked, List.countP_cons_of_neg]
            · rfl
            · simp [hm]
          simp only [List.get?_cons_succ]
          rw [this, htake]
    · -- marked
      rw [renumber_go]
      rw [if_pos (by rw [hm])]
      have hvx' : (if next ≠ pos then { x with id := (next : Int) } else x)
          = { x with id := (next : Int) } := by
        by_cases hnp : next = pos
        · rw [if_neg (by omega)]
          rcases x with ⟨c, idv, d, m⟩
          simp only [Vertex.mk.injEq, and_true, true_and]
          simp only at hid0
          rw [hid0, hnp]
        · rw [if_pos hnp]
      obtain ⟨hlen, hK, hform⟩ := ih (next+1) (pos+1) hid'
      refine ⟨by simpa using hlen, ?_, ?_⟩
      · have hcnt : countMarked (x :: t) = countMarked t + 1 := by
          rw [countMarked, List.countP_cons_of_pos]
          · rfl
          · simp [hm]
        rw [hcnt]
        simp only []
        rw [hK]
        omega
      · intro k vx h
        cases k with
        | zero =>
          have hx : vx = x := by injection h with h; exact h.symm
          subst hx
          simp only [List.get?_cons_zero, hvx']
          rw [if_pos hm, List.take_zero]
          have hc0 : countMarked ([] : List Vertex) = 0 := rfl
          rw [hc0, Nat.add_zero]
        | succ k' =>
          have h' : t.get? k' = some vx := by simpa using h
          have hf := hform k' vx h'
          have htake : countMarked ((x :: t).take (k'+1))
              = countMarked (t.take k') + 1 := by
            rw [List.take_succ_cons, countMarked, List.countP_cons_of_pos]
            · rfl
            · simp [hm]
          simp only [List.get?_cons_succ]
          rw [hf, htake]
          by_cases hvm : vx.marked
          · rw [if_pos hvm, if_pos hvm]
            have : next + 1 + countMarked (t.take k')
                = next + (countMarked (t.take k') + 1) := by omega
            rw [this]
          · rw [if_neg hvm, if_neg hvm]

theorem countMarked_take_le (l : List Vertex) {i j : Nat} (hij : i ≤ j) :
    countMarked (l.take i) ≤ countMarked (l.take j) := by
  have he : j = i + (j - i) := by omega
  conv_rhs => rw [he, List.take_add]
  rw [countMarked, countMarked, List.countP_append]
  exact Nat.le_add_right _ _

theorem countMarked_take_lt {l : List Vertex} {i j : Nat} {vx : Vertex}
    (hij : i < j) (h : l.get? i = some vx) (hm : vx.marked = true) :
    countMarked (l.take i) < countMarked (l.take j) := by
  have hstep : countMarked (l.take (i+1)) = countMarked (l.take i) + 1 := by
    rw [List.take_succ]
    have h' : l[i]? = some vx := by rwa [← List.get?_eq_getElem?]
    rw [h', countMarked, countMarked, List.countP_append]
    simp [hm]
  have hle := countMarked_take_le l (show i + 1 ≤ j by omega)
  omega

theorem countMarked_take_lt_all {l : List Vertex} {i : Nat} {vx : Vertex}
    (h : l.get? i = some vx) (hm : vx.marked = true) :
    countMarked (l.take i) < countMarked l := by
  have hi : i < l.length := (List.get?_eq_some.mp h).1
  have := countMarked_take_lt (show i < l.length by omega) h hm
  rwa [List.take_length] at this

theorem countMarked_take_surj :
    ∀ (l : List Vertex) (m : Nat), m < countMarked l →
    ∃ i vx, l.get? i = some vx ∧ vx.marked = true ∧ countMarked (l.take i) = m := by
  intro l
  induction l with
  | nil => intro m hm; rw [countMarked, List.countP_nil] at hm; omega
  | cons x t ih =>
    intro m hm
    rcases hxm : x.marked with _ | _
    · have hcnt : countMarked (x :: t) = countMarked t := by
        rw [countMarked, List.countP_cons_of_neg]
        · rfl
        · simp [hxm]
      rw [hcnt] at hm
      obtain ⟨i, vx, hg, hvm, hc⟩ := ih m hm
      refine ⟨i + 1, vx, by simpa using hg, hvm, ?_⟩
      rw [List.take_succ_cons, countMarked, List.countP_cons_of_neg]
      · exact hc
      · simp [hxm]
    · have hcnt : countMarked (x :: t) = countMarked t + 1 := by
        rw [countMarked, List.countP_cons_of_pos]
        · rfl
        · simp [hxm]
      rcases m with _ | m'
      · exact ⟨0, x, rfl, hxm, by simp [countMarked]⟩
      · have hm' : m' < countMarked t := by omega
        obtain ⟨i, vx, hg, hvm, hc⟩ := ih m' hm'
        refine ⟨i + 1, vx, by simpa using hg, hvm, ?_⟩
        rw [List.take_succ_cons, countMarked, List.countP_cons_of_pos]
        · rw [← countMarked, hc]
        · simp [hxm]

theorem get_id_of_dup_neg {va : VertexArray} {i : Nat} {vx : Vertex}
    (h : va.vertices.get? i = some vx) (hdup : vx.dup = -1) :
    vertex_array_get_id va (i : Int) = vx.id := by
  have hi : i < va.vertices.length := (List.get?_eq_some.mp h).1
  rw [vertex_array_get_id, get_id_fuel]
  have hget : vertex_array_get_vertex va (i : Int) = some vx := by
    rw [vertex_array_get_vertex, if_pos (by constructor <;> [omega; omega])]
    simpa using h
  rw [hget]
  dsimp only
  rw [if_neg (by omega)]

/-- Claim C9: starting from a pool whose vertices have `id` equal to their
insertion index and `dup == -1`, running `find_duplicates` (over any
permutation `sorted` of the vertex indices, covering every possible
`qsort` order) followed by `renumber` makes `get_id` injective on the set
of vertices with `dup == -1` and `marked == true`, and the set of their
ids is exactly `0..K-1` where `K` is `renumber`'s return value. -/
theorem C9_renumber_dense_ids (va : VertexArray) (sorted : List Nat)
    (va1 : VertexArray) (cnt : Nat) (va2 : VertexArray) (K : Nat)
    (hperm : sorted.Perm (List.range va.vertices.length))
    (hinit : ∀ i vx, va.vertices.get? i = some vx → vx.id = (i : Int) ∧ vx.dup = -1)
    (hfd : vertex_array_find_duplicates va sorted = (va1, cnt))
    (hrn : vertex_array_renumber va1 = (va2, K)) :
    (∀ i j vi vj, va2.vertices.get? i = some vi → va2.vertices.get? j = some vj →
      vi.dup = -1 → vi.marked = true → vj.dup = -1 → vj.marked = true →
      vertex_array_get_id va2 (i : Int) = vertex_array_get_id va2 (j : Int) →
      i = j) ∧
    (∀ i vi, va2.vertices.get? i = some vi → vi.dup = -1 → vi.marked = true →
      ∃ m : Nat, m < K ∧ vertex_array_get_id va2 (i : Int) = (m : Int)) ∧
    (∀ m : Nat, m < K → ∃ i vi, va2.vertices.get? i = some vi ∧ vi.dup = -1 ∧
      vi.marked = true ∧ vertex_array_get_id va2 (i : Int) = (m : Int)) := by
  -- facts about the pool after find_duplicates
  have hnd : sorted.Nodup := hperm.nodup_iff.mpr (List.nodup_range _)
  have hva1 : va1.vertices = (vertex_array_find_duplicates va sorted).1.vertices := by
    rw [hfd]
  have hid1 : ∀ j, (va1.vertices.get? j).map Vertex.id
      = (va.vertices.get? j).map Vertex.id := by
    intro j
    rw [hva1]
    rcases hs : sorted with _ | ⟨h, t⟩
    · rfl
    · exact findDupsGo_id t va.vertices h 0 j
  have hmd1 : ∀ i vx, va1.vertices.get? i = some vx → vx.marked = true →
      vx.dup = -1 := by
    intro i vx h hm
    rw [hva1] at h
    rcases hs : sorted with _ | ⟨hh, t⟩
    · rw [hs] at h
      exact (hinit i vx h).2
    · rw [hs] at h
      rw [hs] at hnd
      exact findDupsGo_marked_dup t va.vertices hh 0 hnd
        (fun i vx hg _ => (hinit i vx hg).2)
        (fun vx hg => (hinit _ vx hg).2)
        (fun w _ vx hg => (hinit _ vx hg).2) i vx h hm
  have hid1' : ∀ k vx, va1.vertices.get? k = some vx → vx.id = ((0 + k : Nat) : Int) := by
    intro k vx h
    have := hid1 k
    rw [h] at this
    rcases hv : va.vertices.get? k with _ | vy
    · rw [hv] at this; exact Option.noConfusion this
    · rw [hv] at this
      simp only [Option.map_some'] at this
      injection this with this
      rw [this, (hinit k vy hv).1]
      norm_num
  -- renumber
  obtain ⟨hlen2, hK, hform⟩ := renumber_go_spec va1.vertices 0 0 hid1'
  have hva2 : va2.vertices = (renumber_go va1.vertices 0 0).1 := by
    have : vertex_array_renumber va1 = (⟨(renumber_go va1.vertices 0 0).1⟩,
        (renumber_go va1.vertices 0 0).2) := rfl
    rw [this] at hrn
    injection hrn with h1 h2
    rw [← h1]
  have hKval : K = countMarked va1.vertices := by
    have : vertex_array_renumber va1 = (⟨(renumber_go va1.vertices 0 0).1⟩,
        (renumber_go va1.vertices 0 0).2) := rfl
    rw [this] at hrn
    injection hrn with h1 h2
    rw [← h2, hK]
    omega
  -- translate between va2 and va1 vertices
  have hback : ∀ k vx2, va2.vertices.get? k = some vx2 →
      ∃ vx1, va1.vertices.get? k = some vx1 ∧
        vx2 = (if vx1.marked then
          { vx1 with id := ((countMarked (va1.vertices.take k) : Nat) : Int) }
          else vx1) := by
    intro k vx2 h2
    rw [hva2] at h2
    have hk : k < va1.vertices.length := by
      have := (List.get?_eq_some.mp h2).1
      rwa [hlen2] at this
    rcases hv1 : va1.vertices.get? k with _ | vx1
    · rw [List.get?_eq_get hk] at hv1; exact Option.noConfusion hv1
    · have := hform k vx1 hv1
      rw [this] at h2
      injection h2 with h2
      exact ⟨vx1, rfl, by rw [← h2, Nat.zero_add]⟩
  -- id of a marked, dup -1 vertex of va2 is its rank
  have hrank : ∀ k vx2, va2.vertices.get? k = some vx2 → vx2.dup = -1 →
      vx2.marked = true →
      vertex_array_get_id va2 (k : Int) = ((countMarked (va1.vertices.take k) : Nat) : Int) ∧
      ∃ vx1, va1.vertices.get? k = some vx1 ∧ vx1.marked = true := by
    intro k vx2 h2 hdup hm
    obtain ⟨vx1, hv1, hform2⟩ := hback k vx2 h2
    rcases hm1 : vx1.marked with _ | _
    · rw [hm1] at hform2
      simp only [Bool.false_eq_true, if_false] at hform2
      rw [hform2] at hm
      rw [hm1] at hm
      exact Bool.noConfusion hm
    · rw [hm1] at hform2
      simp only [if_true] at hform2
      constructor
      · rw [get_id_of_dup_neg h2 hdup, hform2]
      · exact ⟨vx1, hv1, hm1⟩
  refine ⟨?_, ?_, ?_⟩
  · -- injectivity
    intro i j vi vj hi hj hdi hmi hdj hmj heq
    obtain ⟨hri, vi1, hvi1, hmi1⟩ := hrank i vi hi hdi hmi
    obtain ⟨hrj, vj1, hvj1, hmj1⟩ := hrank j vj hj hdj hmj
    rw [hri, hrj] at heq
    have hcnt : countMarked (va1.vertices.take i) = countMarked (va1.vertices.take j) := by
      exact_mod_cast heq
    by_contra hne
    rcases Nat.lt_or_ge i j with hlt | hge
    · have := countMarked_take_lt hlt hvi1 hmi1
      omega
    · have hlt : j < i := by omega
      have := countMarked_take_lt hlt hvj1 hmj1
      omega
  · -- range
    intro i vi hi hdi hmi
    obtain ⟨hri, vi1, hvi1, hmi1⟩ := hrank i vi hi hdi hmi
    refine ⟨countMarked (va1.vertices.take i), ?_, hri⟩
    rw [hKval]
    exact countMarked_take_lt_all hvi1 hmi1
  · -- surjectivity onto 0..K-1
    intro m hm
    rw [hKval] at hm
    obtain ⟨i, vx1, hv1, hm1, hc⟩ := countMarked_take_surj va1.vertices m hm
    have hi : i < va1.vertices.length := (List.get?_eq_some.mp hv1).1
    have hd1 : vx1.dup = -1 := hmd1 i vx1 hv1 hm1
    -- the corresponding vertex of va2
    have h2 : va2.vertices.get? i
        = some { vx1 with id := ((countMarked (va1.vertices.take i) : Nat) : Int) } := by
      rw [hva2]
      have := hform i vx1 hv1
      rw [this, hm1]
      norm_num
    refine ⟨i, _, h2, hd1, hm1, ?_⟩
    rw [get_id_of_dup_neg h2 hd1]
    simp only []
    rw [hc]

/-- Witness for C9 on a concrete four-vertex pool containing a duplicate
pair, with the lexicographically sorted index order. -/
theorem C9_renumber_dense_ids_witness :
    (∀ i j vi vj,
      ((vertex_array_renumber (vertex_array_find_duplicates w9_pool w9_sorted).1).1).vertices.get? i = some vi →
      ((vertex_array_renumber (vertex_array_find_duplicates w9_pool w9_sorted).1).1).vertices.get? j = some vj →
      vi.dup = -1 → vi.marked = true → vj.dup = -1 → vj.marked = true →
      vertex_array_get_id (vertex_array_renumber (vertex_array_find_duplicates w9_pool w9_sorted).1).1 (i : Int)
        = vertex_array_get_id (vertex_array_renumber (vertex_array_find_duplicates w9_pool w9_sorted).1).1 (j : Int) →
      i = j) ∧
    (∀ i vi,
      ((vertex_array_renumber (vertex_array_find_duplicates w9_pool w9_sorted).1).1).vertices.get? i = some vi →
      vi.dup = -1 → vi.marked = true →
      ∃ m : Nat, m < (vertex_array_renumber (vertex_array_find_duplicates w9_pool w9_sorted).1).2 ∧
        vertex_array_get_id (vertex_array_renumber (vertex_array_find_duplicates w9_pool w9_sorted).1).1 (i : Int) = (m : Int)) ∧
    (∀ m : Nat, m < (vertex_array_renumber (vertex_array_find_duplicates w9_pool w9_sorted).1).2 →
      ∃ i vi,
        ((vertex_array_renumber (vertex_array_find_duplicates w9_pool w9_sorted).1).1).vertices.get? i = some vi ∧
        vi.dup = -1 ∧ vi.marked = true ∧
        vertex_array_get_id (vertex_array_renumber (vertex_array_find_duplicates w9_pool w9_sorted).1).1 (i : Int) = (m : Int)) :=
  C9_renumber_dense_ids w9_pool w9_sorted
    (vertex_array_find_duplicates w9_pool w9_sorted).1
    (vertex_array_find_duplicates w9_pool w9_sorted).2
    (vertex_array_renumber (vertex_array_find_duplicates w9_pool w9_sorted).1).1
    (vertex_array_renumber (vertex_array_find_duplicates w9_pool w9_sorted).1).2
    (by with_unfolding_all decide)
    (by
      intro i vx h
      have hi : i < 4 := (List.get?_eq_some.mp h).1
      interval_cases i <;>
        · injection h with h
          rw [← h]
          exact ⟨by norm_num, rfl⟩)
    rfl rfl

end ObjLib
